import Mathlib

/-!
Verification development for the `rust2sprint` quote server.

The definitions below are a shallow embedding of the Rust sources of the
repository (workspace members `quote_server`, `commons`, `macros`).  Machine
floats (`f64`) are modelled as rationals `ℚ`; the arithmetic the generator
performs on prices (`* 90.0 / 100.0`, comparisons against the configured
bands) is exact on the values involved, so the rational model is faithful.
Randomness is modelled by passing the sampled values in as explicit oracles:
`random_by_tuple(t)` becomes an argument `draw : ℚ × ℚ → ℚ` about which
theorems assume only that a sample lies inside the closed range it was drawn
from, and `random_bool` becomes an explicit `Bool` argument.  Concurrency is
modelled by per-iteration observation records: each loop iteration of a
thread reads its inputs (atomic stop flag, channel receive result, ping
deadline) and the run of the loop is a pure function of the observation
trace.
-/

namespace QuoteServer

/-! ## Data model (`commons/src/models.rs`) -/

/-- `commons::models::Transaction` — the side of a synthesized trade. -/
inductive Transaction where
  /-- `Transaction::Sell`. -/
  | sell : Transaction
  /-- `Transaction::Buy`. -/
  | buy : Transaction
deriving DecidableEq, Repr

/-- `commons::models::StockQuote`.  `price : f64` is modelled as `ℚ`;
`volume : u32` and `timestamp : u64` as `ℕ` (no arithmetic is ever performed
on them, so overflow cannot arise). -/
structure StockQuote where
  /-- Ticker symbol. -/
  ticker : String
  /-- Current unit price. -/
  price : ℚ
  /-- Units traded. -/
  volume : ℕ
  /-- Seconds since the UNIX epoch. -/
  timestamp : ℕ
  /-- Trade side. -/
  transaction : Transaction
deriving DecidableEq, Repr

/-- The `Display` string of a `Transaction`, generated by the
`QuoteEnumDisplay` derive macro (`macros/src/lib.rs`) from the `#[str("…")]`
attributes: lowercase `"sell"` / `"buy"`. -/
def Transaction.displayStr : Transaction → String
  | .sell => "sell"
  | .buy => "buy"

/-- The string serde emits for a `Transaction` in JSON: the plain derive
`#[derive(Serialize)]` on a unit variant uses the variant identifier
verbatim, so `Transaction::Sell` serializes as `"Sell"` and
`Transaction::Buy` as `"Buy"` (`commons/src/models.rs` has no
`#[serde(rename…)]` attribute). -/
def Transaction.serdeStr : Transaction → String
  | .sell => "Sell"
  | .buy => "Buy"

/-- Decimal rendering of a price with exactly one digit after the point, the
way `serde_json` prints an `f64` whose value has at most one decimal digit
(e.g. `100.5 ↦ "100.5"`, `100 ↦ "100.0"`).  Prices in this development are
non-negative multiples of `1/10`, where this model is exact. -/
def renderDecimal (q : ℚ) : String :=
  let scaled : ℤ := q.num * 10 / (q.den : ℤ)
  toString (scaled / 10) ++ "." ++ toString (scaled % 10)

/-- Rendering of a price by Rust's `Display` for `f64` (used by the
`QuoteDisplay`-derived `Display` of `StockQuote`): integral values print
without a decimal point, others as in `renderDecimal`. -/
def renderFloatDisplay (q : ℚ) : String :=
  if q.den = 1 then toString q.num else renderDecimal q

/-- Rendering of a price by `serde_json::to_string`: an integral `f64`
prints with a trailing `.0`. -/
def renderFloatJson (q : ℚ) : String :=
  renderDecimal q

/-- The `Display` string of a `StockQuote`, generated by the `QuoteDisplay`
derive macro (`macros/src/lib.rs`): the fields in declaration order joined
by `|`, with the trailing newline of `writeln!`. -/
def quoteDisplayString (q : StockQuote) : String :=
  q.ticker ++ "|" ++ renderFloatDisplay q.price ++ "|" ++ toString q.volume
    ++ "|" ++ toString q.timestamp ++ "|" ++ q.transaction.displayStr ++ "\n"

/-- The string `serde_json::to_string` produces for a `StockQuote`: one JSON
object, fields in declaration order. -/
def serdeJsonStockQuote (q : StockQuote) : String :=
  "\x7b\"ticker\":\"" ++ q.ticker ++ "\",\"price\":" ++ renderFloatJson q.price
    ++ ",\"volume\":" ++ toString q.volume
    ++ ",\"timestamp\":" ++ toString q.timestamp
    ++ ",\"transaction\":\"" ++ q.transaction.serdeStr ++ "\"\x7d"

/-- The payload `start_generator` in `quote_server/src/main.rs` places on
the broadcast bus for a freshly generated quote: `quote.to_string()`, i.e.
the pipe-delimited `Display` rendering. -/
def busPayloadMain (q : StockQuote) : String :=
  quoteDisplayString q

/-- The payload `start_generator` in `quote_server/src/channels.rs` places
on the bus: `serde_json::to_string(&quote)`. -/
def busPayloadChannels (q : StockQuote) : String :=
  serdeJsonStockQuote q

/-! ## JSON deserialization (`serde_json::from_str::<StockQuote>`)

The transmitter (`quote_server/src/udp.rs`) deserializes every inbox payload
with `serde_json::from_str`.  Every payload the program ever parses was
produced by `serde_json::to_string` (or is the non-JSON `Display` string of
`main.rs`), so the parser below recognizes exactly the canonical serialized
form and rejects everything else; serde's full grammar is wider (whitespace,
field reordering) but those shapes are unreachable in the program. -/

/-- Consume an expected literal character prefix; `none` on mismatch. -/
def dropExpected : List Char → List Char → Option (List Char)
  | [], s => some s
  | _ :: _, [] => none
  | p :: ps, c :: cs => if c = p then dropExpected ps cs else none

/-- Parse a non-empty all-digit character list as a `ℕ`. -/
def digitsToNat : List Char → Option ℕ
  | [] => none
  | l =>
    if l.all Char.isDigit then
      some (l.foldl (fun a c => a * 10 + (c.toNat - 48)) 0)
    else none

/-- Parse a decimal number `ddd` or `ddd.ddd` as a `ℚ`. -/
def parseDecimal (l : List Char) : Option ℚ :=
  match l.span (· ≠ '.') with
  | (intPart, []) => (digitsToNat intPart).map (fun n => (n : ℚ))
  | (intPart, _ :: fracPart) => do
    let n ← digitsToNat intPart
    let f ← digitsToNat fracPart
    pure (mkRat (n * 10 ^ fracPart.length + f) (10 ^ fracPart.length))

/-- Character class of a JSON number in canonical serde output. -/
def isNumChar (c : Char) : Bool :=
  c.isDigit || c = '.'

/-- Parse the canonical `serde_json` serialization of a `StockQuote`
(field order `ticker`, `price`, `volume`, `timestamp`, `transaction`). -/
def parseStockQuoteJsonList (s : List Char) : Option StockQuote := do
  let s ← dropExpected "\x7b\"ticker\":\"".data s
  let tk := s.takeWhile (· ≠ '"')
  let s := s.dropWhile (· ≠ '"')
  let s ← dropExpected "\",\"price\":".data s
  let pr := s.takeWhile isNumChar
  let s := s.dropWhile isNumChar
  let price ← parseDecimal pr
  let s ← dropExpected ",\"volume\":".data s
  let vl := s.takeWhile Char.isDigit
  let s := s.dropWhile Char.isDigit
  let volume ← digitsToNat vl
  let s ← dropExpected ",\"timestamp\":".data s
  let ts := s.takeWhile Char.isDigit
  let s := s.dropWhile Char.isDigit
  let timestamp ← digitsToNat ts
  let s ← dropExpected ",\"transaction\":\"".data s
  let tr := s.takeWhile (· ≠ '"')
  let s := s.dropWhile (· ≠ '"')
  let s ← dropExpected "\"\x7d".data s
  if s ≠ [] then none
  else
    let transaction ←
      match String.mk tr with
      | "Sell" => some Transaction.sell
      | "Buy" => some Transaction.buy
      | _ => none
    pure ⟨String.mk tk, price, volume, timestamp, transaction⟩

/-- `serde_json::from_str::<StockQuote>` on a `String` payload. -/
def parseStockQuoteJson (s : String) : Option StockQuote :=
  parseStockQuoteJsonList s.data

example :
    parseStockQuoteJson
      (serdeJsonStockQuote ⟨"AAPL", mkRat 201 2, 1000, 7, Transaction.buy⟩)
      = some ⟨"AAPL", mkRat 201 2, 1000, 7, Transaction.buy⟩ := by
  decide

example :
    parseStockQuoteJson
      (busPayloadMain ⟨"AAPL", mkRat 201 2, 1000, 7, Transaction.buy⟩) = none := by
  decide

/-! ## Per-client transmitter (`quote_server/src/udp.rs`, `spawn_stream`)

One iteration of the transmitter loop reads, in order: the subscription's
atomic `stop_flag`; whether the last ping is older than
`UDP_PING_TIMEOUT_SECS`; and the `recv_timeout` result from the
subscription's inbox.  An iteration is modelled as the record of those three
observations (the up-to-64-byte ping datagram read only feeds the ping
deadline, which the `pingTimeout` field records). -/

/-- The observations one transmitter loop iteration makes. -/
structure TransIter where
  /-- The value of `client.stop_flag` read at the top of the loop. -/
  stop : Bool
  /-- Whether `last_ping.elapsed() > UDP_PING_TIMEOUT_SECS` held. -/
  pingTimeout : Bool
  /-- The inbox `recv_timeout` result: a payload, or `none` on timeout. -/
  inbox : Option String
deriving DecidableEq, Repr

/-- The filter test of `spawn_stream`:
`!client.tickers.is_empty() && !client.tickers.contains(&stock_quote.ticker)`.
When it holds the code executes `return`, ending the transmitter thread. -/
def filterDrops (tickers : List String) (sq : StockQuote) : Bool :=
  !tickers.isEmpty && !tickers.contains sq.ticker

/-- The datagram payloads the transmitter loop of `spawn_stream` sends to
`udp_peer`, as a function of the subscription's ticker filter and the
iteration-observation trace.  Mirrors the loop body exactly: `break` on
`stop_flag`; `break` on ping timeout; on an inbox payload, `return` if the
JSON parse fails, `return` if the non-empty filter does not contain the
quote's ticker, otherwise send the raw payload and continue. -/
def transmitterRun (tickers : List String) : List TransIter → List String
  | [] => []
  | it :: rest =>
    if it.stop then []
    else if it.pingTimeout then []
    else
      match it.inbox with
      | none => transmitterRun tickers rest
      | some payload =>
        match parseStockQuoteJson payload with
        | none => []
        | some sq =>
          if filterDrops tickers sq then []
          else payload :: transmitterRun tickers rest

/-! ## Generator configuration (`quote_server/src/config.rs`) -/

/-- `quote_server::config::QuoteGenerateSettings`. -/
structure QuoteGenerateSettings where
  /-- Price band of the Expensive tier. -/
  expensive : ℚ × ℚ
  /-- Price band of the Middle tier. -/
  middle : ℚ × ℚ
  /-- Price band of the Low tier. -/
  low : ℚ × ℚ
  /-- Share of tickers seeded in the Expensive tier. -/
  topShare : ℚ
  /-- Share of tickers seeded in the Middle tier. -/
  middleShare : ℚ
  /-- Range of the per-trade volume. -/
  unitsPerTrade : ℕ × ℕ
  /-- Probability that a tick changes the chosen ticker's price. -/
  probabilityChangePrice : ℚ

/-- The static `QUOTE_SETTINGS` value of `quote_server/src/config.rs`. -/
def QUOTE_SETTINGS : QuoteGenerateSettings where
  expensive := (500, 1500)
  middle := (100, 499)
  low := (1/2, 999/10)
  topShare := 1/10
  middleShare := 4/10
  unitsPerTrade := (1, 500000)
  probabilityChangePrice := 9/10

/-! ## Generator (`quote_server/src/generator.rs`) -/

/-- `QuoteGenerator::update_price_random`, with the randomness passed in:
`changePrice` is the `random_bool(probability_change_price)` sample and
`draw t` the `random_by_tuple(t)` sample for a range tuple `t`.  The match
on `(calc_min < low.0, calc_max > expensive.1)` is transcribed as the
two-condition if-chain with the same three arms. -/
def updatePriceRandom (changePrice : Bool) (draw : ℚ × ℚ → ℚ)
    (oldPrice : ℚ) : ℚ :=
  if ¬changePrice then oldPrice
  else
    let calcMin := oldPrice * 90 / 100
    let calcMax := oldPrice * 110 / 100
    let c1 := calcMin < QUOTE_SETTINGS.low.1
    let c2 := calcMax > QUOTE_SETTINGS.expensive.2
    let range :=
      if c1 ∧ ¬c2 then QUOTE_SETTINGS.low
      else if ¬c1 ∧ c2 then QUOTE_SETTINGS.expensive
      else (calcMin, calcMax)
    draw range

/-- Modelled from the spec: the §4.B step-2 price rule, written in the
spec's own vocabulary, used to state the refinement claim C6 against
`updatePriceRandom`.  "With probability `probability_change_price`, compute
a candidate from `p_old`; if `0.9·p_old < LOW_MIN` and
`1.1·p_old ≤ EXPENSIVE_MAX`, redraw within the Low tier band; if
`1.1·p_old > EXPENSIVE_MAX` and `0.9·p_old ≥ LOW_MIN`, redraw within the
Expensive tier band; otherwise draw from `[0.9·p_old, 1.1·p_old]`; with
probability `1 − probability_change_price` keep `p_old`." -/
def specNewPrice (changePrice : Bool) (draw : ℚ × ℚ → ℚ) (pOld : ℚ) : ℚ :=
  if changePrice then
    if 9/10 * pOld < QUOTE_SETTINGS.low.1
        ∧ 11/10 * pOld ≤ QUOTE_SETTINGS.expensive.2 then
      draw (QUOTE_SETTINGS.low.1, QUOTE_SETTINGS.low.2)
    else if 11/10 * pOld > QUOTE_SETTINGS.expensive.2
        ∧ 9/10 * pOld ≥ QUOTE_SETTINGS.low.1 then
      draw (QUOTE_SETTINGS.expensive.1, QUOTE_SETTINGS.expensive.2)
    else
      draw (9/10 * pOld, 11/10 * pOld)
  else pOld

/-- The initial price `QuoteGenerator::init_quote_board` assigns to the
ticker at position `i` of the shuffled list: the first `expensiveCount`
tickers draw from the Expensive band, the next `middleCount` from the
Middle band, the rest from the Low band. -/
def initPrice (draw : ℚ × ℚ → ℚ) (expensiveCount middleCount i : ℕ) : ℚ :=
  if i < expensiveCount then draw QUOTE_SETTINGS.expensive
  else if i < expensiveCount + middleCount then draw QUOTE_SETTINGS.middle
  else draw QUOTE_SETTINGS.low

/-- `QuoteGenerator::init_quote_board` as a function of the already-shuffled
ticker list (`shuffle_vec` is a permutation oracle) and the sampling oracle.
`expensive_count` and `middle_count` are the `ceil` of the tier shares. -/
def initQuoteBoard (draw : ℚ × ℚ → ℚ) (shuffledTickers : List String) :
    List (String × ℚ) :=
  let total := shuffledTickers.length
  let expensiveCount := ((total : ℚ) * QUOTE_SETTINGS.topShare).ceil.toNat
  let middleCount := ((total : ℚ) * QUOTE_SETTINGS.middleShare).ceil.toNat
  shuffledTickers.enum.map
    (fun p => (p.2, initPrice draw expensiveCount middleCount p.1))

/-! ## Session id counter (`quote_server/src/tcp.rs`)

`CLIENTS_COUNTER` is an `AtomicUsize` initialized to `1000`; `gen_id` is
`fetch_add(1, SeqCst)`, which returns the previous value and stores the
incremented value, wrapping on overflow of the 64-bit word. -/

/-- One `gen_id` call on counter state `c`: the allocated id and the new
counter state, with the wrap-around of `usize::fetch_add` explicit. -/
def genId (c : ℕ) : ℕ × ℕ :=
  (c % 2 ^ 64, (c + 1) % 2 ^ 64)

/-- The ids allocated by `n` successive `gen_id` calls from counter state
`c`. -/
def genIds (c : ℕ) : ℕ → List ℕ
  | 0 => []
  | n + 1 => (genId c).1 :: genIds (genId c).2 n

/-- The initial value of `CLIENTS_COUNTER`. -/
def CLIENTS_COUNTER_INIT : ℕ := 1000

/-! ## Subscription registry and command front-end
(`quote_server/src/tcp.rs`)

The registry is the `HashMap<usize, ClientSubscription>` inside
`ClientManager`, guarded by one mutex; it is modelled as an association
list keyed by session id.  The crossbeam channel endpoints of a
subscription carry no state that the verified claims depend on, so they are
omitted from the record; the shared `Arc<AtomicBool>` stop flag is modelled
as the `stopFlag` field of the stored record. -/

/-- `ClientSubscription` (`tcp.rs`). -/
structure ClientSub where
  /-- Session id. -/
  uniqueId : ℕ
  /-- The client's TCP peer address, as text. -/
  tcpAddr : String
  /-- The UDP URL the datagrams go to, as text. -/
  udpUrl : String
  /-- Ticker filter (empty = all tickers). -/
  tickers : List String
  /-- The `stop_flag` atomic. -/
  stopFlag : Bool
deriving DecidableEq, Repr

/-- `ClientManager` (`tcp.rs`): the registry of active subscriptions. -/
structure ClientManager where
  /-- Association list `session id ↦ subscription`. -/
  clients : List (ℕ × ClientSub)
deriving DecidableEq, Repr

/-- `ClientManager::id_exists`. -/
def ClientManager.idExists (m : ClientManager) (uniqueId : ℕ) : Bool :=
  (m.clients.lookup uniqueId).isSome

/-- `ClientManager::add_client`: refuses a duplicate id, otherwise inserts.
The caller in `handle_client` discards the error (`.ok()`). -/
def ClientManager.addClient (m : ClientManager) (client : ClientSub) :
    Except String ClientManager :=
  if m.idExists client.uniqueId then .error "Клиент уже существует"
  else .ok ⟨(client.uniqueId, client) :: m.clients⟩

/-- `ClientManager::remove_client`: removes and returns the subscription
with the given id, or errors when absent. -/
def ClientManager.removeClient (m : ClientManager) (uniqueId : ℕ) :
    Option ClientSub × ClientManager :=
  match m.clients.lookup uniqueId with
  | some c => (some c, ⟨m.clients.filter (fun p => p.1 ≠ uniqueId)⟩)
  | none => (none, m)

/-- Rust's `str::trim` (strip whitespace from both ends), spelled out on
the character list so that it evaluates inside the kernel. -/
def strTrim (s : String) : String :=
  String.mk
    (((s.data.dropWhile Char.isWhitespace).reverse.dropWhile
        Char.isWhitespace).reverse)

/-- Rust's `str::to_uppercase` on the ASCII data this server handles. -/
def strToUpper (s : String) : String :=
  String.mk (s.data.map Char.toUpper)

/-- Rust's `str::to_lowercase` on the ASCII data this server handles. -/
def strToLower (s : String) : String :=
  String.mk (s.data.map Char.toLower)

/-- Split a character list at every separator character, keeping empty
chunks — the behavior of Rust's `str::split`. -/
def splitChar (sep : Char → Bool) : List Char → List (List Char)
  | [] => [[]]
  | c :: cs =>
    if sep c then [] :: splitChar sep cs
    else
      match splitChar sep cs with
      | [] => [[c]]
      | chunk :: chunks => (c :: chunk) :: chunks

/-- Rust's `str::split_whitespace`: split on whitespace, no empty
tokens. -/
def splitWs (s : String) : List String :=
  ((splitChar Char.isWhitespace s.data).map String.mk).filter (· ≠ "")

/-- Rust's `str::split(',')`, empty tokens kept. -/
def splitComma (s : String) : List String :=
  (splitChar (· = ',') s.data).map String.mk

/-- The ticker-spec normalization inside `Command::make_client`: split the
second argument on `','`, trim and uppercase each token, drop empties. -/
def normalizeTokens (spec : String) : List String :=
  ((splitComma spec).map (fun s => strToUpper (strTrim s))).filter (· ≠ "")

/-- The ticker-set computation of `Command::make_client`: the literal `ALL`
(case-insensitive) selects the whole loaded set; otherwise the normalized
tokens must all be loaded tickers, else the command fails.  The `HashSet`s
of the code are modelled as deduplicated lists. -/
def makeClientTickers (loaded : List String) (spec : String) :
    Option (List String) :=
  if strToUpper spec = "ALL" then some loaded.dedup
  else
    let input := (normalizeTokens spec).dedup
    if input.all (loaded.contains ·) then some input else none

/-- The scheme of a URL, as `Url::parse` + `scheme()` compute it on the
well-formed `scheme://authority…` strings this server receives: the
characters before the first `:`, which must be followed by `//` and a
non-empty remainder; anything else is a parse error.  (The full WHATWG
grammar accepted by the `url` crate is wider; only the scheme test matters
here.) -/
def urlScheme (s : String) : Option String :=
  match s.data.span (· ≠ ':') with
  | (sch, _ :: rest) =>
    match rest with
    | '/' :: '/' :: tail =>
      if sch ≠ [] ∧ tail ≠ [] then some (String.mk sch) else none
    | _ => none
  | (_, []) => none

/-- `Command::make_client` for `Command::Stream` (`tcp.rs` lines 121–160):
argument-count check, URL parse, scheme check, ticker validation, then the
subscription record (whose `stop_flag` starts `false`).  Errors carry the
`Display` string of the `QuoteError::CommandError`, which is the bare
message.  The URL parse-error message of the code interpolates the `url`
crate's error text after the address; the model keeps the fixed part. -/
def makeClient (loaded : List String) (uniqueId : ℕ) (tcpAddr : String)
    (cmdParts : List String) : Except String ClientSub :=
  match cmdParts with
  | url :: spec :: _ =>
    (match urlScheme url with
    | none => .error ("некорректный udp-адрес '" ++ url ++ "'")
    | some sch =>
      if sch ≠ "udp" then .error "поддерживается только UDP"
      else if loaded.isEmpty then .error "отсутствуют тикеры"
      else
        match makeClientTickers loaded spec with
        | none => .error "некорректные тикеры"
        | some tickers => .ok ⟨uniqueId, tcpAddr, url, tickers, false⟩)
  | _ => .error "команда неполная"

/-- `Command::from_str`, generated by `QuoteEnumDisplay`: trim, lowercase,
compare with `"stream"` / `"cancel"`.  `true` for Stream. -/
def commandFromStr (s : String) : Option Bool :=
  match strToLower (strTrim s) with
  | "stream" => some true
  | "cancel" => some false
  | _ => none

/-- `ServerResponse::ok(message).to_string()`. -/
def mkOkReply (message : String) : String :=
  if strTrim message = "" then "OK" else "OK|" ++ message

/-- `ServerResponse::err(message).to_string()`. -/
def mkErrReply (message : String) : String :=
  if strTrim message = "" then "ERROR" else "ERROR|" ++ message

/-- The outcome of processing one input line in `handle_client`. -/
structure LineResult where
  /-- Registry after the line. -/
  state : ClientManager
  /-- The reply line written to the TCP stream. -/
  reply : String
  /-- The subscription handed to `spawn_stream`, when one was started. -/
  spawned : Option ClientSub
  /-- The subscription removed by `CANCEL`, with its stop flag as the
  handler leaves it (set to `true`). -/
  canceled : Option ClientSub
deriving DecidableEq, Repr

/-- One iteration of the read-line loop of `handle_client` (`tcp.rs` lines
312–371) on a non-EOF line: trim; empty line → `ERROR|empty line`; split on
whitespace; dispatch on the first token.  `STREAM`: build the subscription
(errors reported, registry untouched); on success insert it — silently
ignoring a duplicate id — and spawn its transmitter, replying
`OK|stream started`.  `CANCEL`: remove this session's subscription if any
and set its stop flag, always replying `OK|canceled`.  Unknown token →
`ERROR|invalid command`.  (A whitespace-only line is caught by the
emptiness test, so the `[]` arm of the split is unreachable.) -/
def handleClientLine (loaded : List String) (idClient : ℕ) (tcpAddr : String)
    (st : ClientManager) (line : String) : LineResult :=
  let input := strTrim line
  if input = "" then ⟨st, mkErrReply "empty line", none, none⟩
  else
    match splitWs input with
    | [] => ⟨st, mkErrReply "empty line", none, none⟩
    | cmd :: rest =>
      match commandFromStr cmd with
      | some true =>
        match makeClient loaded idClient tcpAddr rest with
        | .error msg => ⟨st, mkErrReply msg, none, none⟩
        | .ok client =>
          let st' := match st.addClient client with
            | .ok m => m
            | .error _ => st
          ⟨st', mkOkReply "stream started", some client, none⟩
      | some false =>
        match st.removeClient idClient with
        | (some c, st') =>
          ⟨st', mkOkReply "canceled", none, some { c with stopFlag := true }⟩
        | (none, st') => ⟨st', mkOkReply "canceled", none, none⟩
      | none => ⟨st, mkErrReply "invalid command", none, none⟩

/-! ## Dispatcher (`quote_server/src/channels.rs`) -/

/-- The result of one bounded `send_timeout` into a subscription's inbox. -/
inductive SendOutcome where
  /-- The send succeeded. -/
  | ok : SendOutcome
  /-- `SendTimeoutError::Timeout`. -/
  | timeout : SendOutcome
  /-- `SendTimeoutError::Disconnected`. -/
  | disconnected : SendOutcome
deriving DecidableEq, Repr

/-- `tickers_sender` (`channels.rs` lines 108–124): iterate the snapshot in
order; a successful send delivers to that id; `Timeout` logs and moves on;
`Disconnected` logs and `break`s out of the loop.  Returns the ids that
received the message. -/
def tickersSender : List (ℕ × SendOutcome) → List ℕ
  | [] => []
  | (id, SendOutcome.ok) :: rest => id :: tickersSender rest
  | (_, SendOutcome.timeout) :: rest => tickersSender rest
  | (_, SendOutcome.disconnected) :: _ => []

/-- The snapshot `gen_tickers_dispatcher` takes under the registry lock:
the ids of the clients whose `stop_flag` is `false`, in registry order. -/
def activeSnapshot (m : ClientManager) : List ℕ :=
  (m.clients.filter (fun p => p.2.stopFlag = false)).map Prod.fst

/-- The fan-out `gen_tickers_dispatcher` performs for one quote received
from the bus: snapshot the active subscriptions, then run `tickers_sender`;
`outcomes` gives each subscription channel's `send_timeout` result.
Returns the ids whose inbox received the quote. -/
def dispatchQuote (m : ClientManager) (outcomes : ℕ → SendOutcome) : List ℕ :=
  tickersSender ((activeSnapshot m).map (fun id => (id, outcomes id)))

/-! ## Helper lemmas -/

/-- A line whose whitespace-split is non-empty does not trim to the empty
string. -/
lemma trim_ne_empty_of_splitWs {line : String} {cmd : String}
    {rest : List String} (hsplit : splitWs (strTrim line) = cmd :: rest) :
    strTrim line ≠ "" := by
  intro h
  rw [h] at hsplit
  have hempty : splitWs "" = [] := by decide
  rw [hempty] at hsplit
  exact List.noConfusion hsplit

/-- Processing a line whose first whitespace token is `CANCEL`: the
subscription with this session's id is removed (when present) with its stop
flag set, and the reply is `OK|canceled` in every case. -/
lemma handleClientLine_cancel (loaded : List String) (idClient : ℕ)
    (tcpAddr : String) (st : ClientManager) (line : String)
    (rest : List String)
    (hsplit : splitWs (strTrim line) = "CANCEL" :: rest) :
    handleClientLine loaded idClient tcpAddr st line =
      match st.clients.lookup idClient with
      | some c =>
        ⟨⟨st.clients.filter (fun p => p.1 ≠ idClient)⟩, "OK|canceled", none,
          some { c with stopFlag := true }⟩
      | none => ⟨st, "OK|canceled", none, none⟩ := by
  have hne := trim_ne_empty_of_splitWs hsplit
  have hcmd : commandFromStr "CANCEL" = some false := by decide
  have hok : mkOkReply "canceled" = "OK|canceled" := by decide
  simp only [handleClientLine, if_neg hne, hsplit, hcmd,
    ClientManager.removeClient]
  cases hlook : st.clients.lookup idClient <;> simp [hlook, hok]

/-- C9.  Processing a `CANCEL` command always replies `OK|canceled`: when a
subscription with the session's id exists, it is removed from the registry
and returned with its stop flag set to `true`; when none exists the
registry is left unchanged and the reply is the same — so a second `CANCEL`
behaves exactly as a first `CANCEL` on an absent subscription.  No
transmitter is started either way. -/
theorem cancel_always_ok_and_idempotent (loaded : List String)
    (idClient : ℕ) (tcpAddr : String) (st : ClientManager) (line : String)
    (rest : List String) (hsplit : splitWs (strTrim line) = "CANCEL" :: rest) :
    (handleClientLine loaded idClient tcpAddr st line).reply = "OK|canceled"
      ∧ (handleClientLine loaded idClient tcpAddr st line).spawned = none
      ∧ (∀ c, st.clients.lookup idClient = some c →
          (handleClientLine loaded idClient tcpAddr st line).state =
              ⟨st.clients.filter (fun p => p.1 ≠ idClient)⟩
            ∧ (handleClientLine loaded idClient tcpAddr st line).canceled =
              some { c with stopFlag := true })
      ∧ (st.clients.lookup idClient = none →
          (handleClientLine loaded idClient tcpAddr st line).state = st
            ∧ (handleClientLine loaded idClient tcpAddr st line).canceled =
              none) := by
  rw [handleClientLine_cancel loaded idClient tcpAddr st line rest hsplit]
  cases hlook : st.clients.lookup idClient with
  | none => simp
  | some c => simp

/-- Witness for C9: a concrete registry holding session `1000`; `CANCEL`
removes it, flags it stopped and replies `OK|canceled`; on the emptied
registry the same command replies `OK|canceled` and changes nothing. -/
theorem cancel_always_ok_and_idempotent_witness :
    (splitWs (strTrim "CANCEL udp://127.0.0.1:34254/") =
        "CANCEL" :: ["udp://127.0.0.1:34254/"])
      ∧ ((handleClientLine ["AAPL"] 1000 "127.0.0.1:50000"
            ⟨[(1000, ⟨1000, "127.0.0.1:50000", "udp://127.0.0.1:34254/",
                [], false⟩)]⟩
            "CANCEL udp://127.0.0.1:34254/").reply = "OK|canceled"
          ∧ (handleClientLine ["AAPL"] 1000 "127.0.0.1:50000"
              ⟨[(1000, ⟨1000, "127.0.0.1:50000", "udp://127.0.0.1:34254/",
                  [], false⟩)]⟩
              "CANCEL udp://127.0.0.1:34254/").spawned = none)
      ∧ ((handleClientLine ["AAPL"] 1000 "127.0.0.1:50000" ⟨[]⟩
            "CANCEL udp://127.0.0.1:34254/").reply = "OK|canceled"
          ∧ (handleClientLine ["AAPL"] 1000 "127.0.0.1:50000" ⟨[]⟩
              "CANCEL udp://127.0.0.1:34254/").state = ⟨[]⟩) := by
  refine ⟨by decide, ?_, ?_⟩
  · have h := cancel_always_ok_and_idempotent ["AAPL"] 1000 "127.0.0.1:50000"
      ⟨[(1000, ⟨1000, "127.0.0.1:50000", "udp://127.0.0.1:34254/",
          [], false⟩)]⟩
      "CANCEL udp://127.0.0.1:34254/" ["udp://127.0.0.1:34254/"] (by decide)
    exact ⟨h.1, h.2.1⟩
  · have h := cancel_always_ok_and_idempotent ["AAPL"] 1000 "127.0.0.1:50000"
      ⟨[]⟩ "CANCEL udp://127.0.0.1:34254/" ["udp://127.0.0.1:34254/"]
      (by decide)
    exact ⟨h.1, (h.2.2.2 (by decide)).1⟩

/-- C4.  After `CANCEL` is processed for a session that has a subscription,
that subscription's stop flag is `true`; and once a transmitter observes
`stop = true` at the top of an iteration it exits, so the datagrams of any
trace are exactly those produced strictly before the first iteration that
observed the flag. -/
theorem cancel_stops_datagrams :
    (∀ (loaded : List String) (idClient : ℕ) (tcpAddr : String)
        (st : ClientManager) (line : String) (rest : List String)
        (c : ClientSub),
        splitWs (strTrim line) = "CANCEL" :: rest →
        st.clients.lookup idClient = some c →
        (handleClientLine loaded idClient tcpAddr st line).canceled =
          some { c with stopFlag := true })
      ∧ (∀ (tickers : List String) (pre : List TransIter) (it : TransIter)
          (post : List TransIter), it.stop = true →
          transmitterRun tickers (pre ++ it :: post) =
            transmitterRun tickers pre) := by
  constructor
  · intro loaded idClient tcpAddr st line rest c hsplit hlook
    rw [handleClientLine_cancel loaded idClient tcpAddr st line rest hsplit,
      hlook]
  · intro tickers pre it post hstop
    induction pre with
    | nil => simp [transmitterRun, hstop]
    | cons p rest ih =>
      simp only [List.cons_append, transmitterRun]
      by_cases h1 : p.stop
      · simp [h1]
      · by_cases h2 : p.pingTimeout
        · simp [h1, h2]
        · cases hp : p.inbox with
          | none => simp [h1, h2, hp, ih]
          | some payload =>
            cases hq : parseStockQuoteJson payload with
            | none => simp [h1, h2, hp, hq]
            | some sq =>
              by_cases h3 : filterDrops tickers sq
              · simp [h1, h2, hp, hq, h3]
              · simp [h1, h2, hp, hq, h3, ih]

/-- C8.  A `STREAM` command whose ticker-spec is not the literal `ALL` and
contains a token missing from the loaded ticker set fails as a whole: the
reply is `ERROR|некорректные тикеры`, the registry is unchanged, and no
transmitter is spawned. -/
theorem unknown_ticker_fails_whole_stream (loaded : List String)
    (idClient : ℕ) (tcpAddr : String) (st : ClientManager)
    (line url spec : String) (hld : loaded ≠ [])
    (hsplit : splitWs (strTrim line) = ["STREAM", url, spec])
    (hurl : urlScheme url = some "udp")
    (hall : strToUpper spec ≠ "ALL")
    (hbad : ∃ t ∈ normalizeTokens spec, ¬loaded.contains t) :
    handleClientLine loaded idClient tcpAddr st line =
      ⟨st, "ERROR|некорректные тикеры", none, none⟩ := by
  have hne := trim_ne_empty_of_splitWs hsplit
  have hcmd : commandFromStr "STREAM" = some true := by decide
  have hmt : makeClientTickers loaded spec = none := by
    unfold makeClientTickers
    rw [if_neg hall]
    obtain ⟨t, ht, hnc⟩ := hbad
    have hfalse : ¬((normalizeTokens spec).dedup.all (loaded.contains ·)
        = true) := by
      intro hall'
      exact hnc (List.all_eq_true.mp hall' t (List.mem_dedup.mpr ht))
    simp only [if_neg hfalse]
  have hmc : makeClient loaded idClient tcpAddr [url, spec] =
      .error "некорректные тикеры" := by
    have hisempty : loaded.isEmpty = false := by
      cases loaded with
      | nil => exact absurd rfl hld
      | cons a l => rfl
    simp [makeClient, hurl, hisempty, hmt]
  have herr : mkErrReply "некорректные тикеры" =
      "ERROR|некорректные тикеры" := by decide
  simp only [handleClientLine, if_neg hne, hsplit, hcmd, hmc, herr]

/-- Witness for C8: loaded set `{AAPL, MSFT}`, command
`STREAM udp://127.0.0.1:34254/ AAPL,XXX` — the unknown token `XXX` fails
the whole command and the empty registry stays empty. -/
theorem unknown_ticker_fails_whole_stream_witness :
    ((["AAPL", "MSFT"] : List String) ≠ []
        ∧ splitWs (strTrim "STREAM udp://127.0.0.1:34254/ AAPL,XXX") =
          ["STREAM", "udp://127.0.0.1:34254/", "AAPL,XXX"]
        ∧ urlScheme "udp://127.0.0.1:34254/" = some "udp"
        ∧ strToUpper "AAPL,XXX" ≠ "ALL"
        ∧ ∃ t ∈ normalizeTokens "AAPL,XXX",
            ¬(["AAPL", "MSFT"] : List String).contains t)
      ∧ handleClientLine ["AAPL", "MSFT"] 1000 "127.0.0.1:50000" ⟨[]⟩
          "STREAM udp://127.0.0.1:34254/ AAPL,XXX" =
        ⟨⟨[]⟩, "ERROR|некорректные тикеры", none, none⟩ :=
  ⟨⟨by decide, by decide, by decide, by decide, ⟨"XXX", by decide, by decide⟩⟩,
    unknown_ticker_fails_whole_stream ["AAPL", "MSFT"] 1000 "127.0.0.1:50000"
      ⟨[]⟩ "STREAM udp://127.0.0.1:34254/ AAPL,XXX" "udp://127.0.0.1:34254/"
      "AAPL,XXX" (by decide) (by decide) (by decide) (by decide)
      ⟨"XXX", by decide, by decide⟩⟩

/-- C10.  Ticker-spec tokens are trimmed, uppercased and purged of empties
before validation, so a ticker-spec whose normalized tokens are all loaded
validates to exactly that normalized set (in particular lowercase names are
accepted); the ticker-spec `","` normalizes to no tokens at all and
validates with an empty filter; and the transmitter's filter test never
drops a quote when the filter is empty. -/
theorem tickerspec_normalization (loaded : List String) (spec : String)
    (hall : strToUpper spec ≠ "ALL")
    (hsub : ∀ t ∈ (normalizeTokens spec).dedup, loaded.contains t) :
    makeClientTickers loaded spec = some ((normalizeTokens spec).dedup)
      ∧ makeClientTickers loaded "," = some []
      ∧ ∀ sq : StockQuote, filterDrops [] sq = false := by
  refine ⟨?_, ?_, fun sq => by simp [filterDrops]⟩
  · unfold makeClientTickers
    rw [if_neg hall, if_pos (List.all_eq_true.mpr hsub)]
  · unfold makeClientTickers
    rw [if_neg (by decide)]
    have hdedup : (normalizeTokens ",").dedup = [] := by decide
    simp [hdedup]

/-- Witness for C10: the lowercase spec `"aapl"` against loaded set
`{AAPL}` validates to `{AAPL}`. -/
theorem tickerspec_normalization_witness :
    (strToUpper "aapl" ≠ "ALL"
        ∧ ∀ t ∈ (normalizeTokens "aapl").dedup,
            (["AAPL"] : List String).contains t)
      ∧ (makeClientTickers ["AAPL"] "aapl" =
            some ((normalizeTokens "aapl").dedup)
        ∧ makeClientTickers ["AAPL"] "," = some []
        ∧ ∀ sq : StockQuote, filterDrops [] sq = false) :=
  ⟨⟨by decide, by decide⟩,
    tickerspec_normalization ["AAPL"] "aapl" (by decide) (by decide)⟩

/-- The ids of `n` wrap-free allocations from counter state `c` are
`c, c+1, …, c+n−1`. -/
lemma genIds_eq (n : ℕ) :
    ∀ c : ℕ, c + n ≤ 2 ^ 64 →
      genIds c n = (List.range n).map (fun i => c + i) := by
  induction n with
  | zero => intro c _; rfl
  | succ n ih =>
    intro c h
    have hc : c < 2 ^ 64 := by omega
    rcases Nat.lt_or_ge (c + 1) (2 ^ 64) with h1 | h1
    · have hstep : genIds c (n + 1) = c :: genIds (c + 1) n := by
        simp only [genIds, genId]
        rw [Nat.mod_eq_of_lt hc, Nat.mod_eq_of_lt h1]
      rw [hstep, ih (c + 1) (by omega), List.range_succ_eq_map]
      simp only [List.map_cons, List.map_map, Nat.add_zero]
      exact congrArg (c :: ·)
        (List.map_congr_left fun i _ => by simp [Function.comp]; omega)
    · have hn : n = 0 := by omega
      subst hn
      simp only [genIds, genId]
      rw [Nat.mod_eq_of_lt hc,
        show List.range 1 = [0] from rfl]
      simp

/-- C7.  `gen_id` allocations from the initial counter value never repeat
while the 64-bit counter has not wrapped: the `n` ids allocated are exactly
`1000, 1001, …`, the first one is `1000`, the sequence is strictly
increasing, and no id occurs twice. -/
theorem session_ids_monotone (n : ℕ)
    (h : CLIENTS_COUNTER_INIT + n ≤ 2 ^ 64) :
    genIds CLIENTS_COUNTER_INIT n = (List.range n).map (fun i => 1000 + i)
      ∧ (genIds CLIENTS_COUNTER_INIT n).Pairwise (· < ·)
      ∧ (0 < n → (genIds CLIENTS_COUNTER_INIT n).head? = some 1000)
      ∧ (genIds CLIENTS_COUNTER_INIT n).Nodup := by
  have heq : genIds CLIENTS_COUNTER_INIT n =
      (List.range n).map (fun i => 1000 + i) :=
    genIds_eq n 1000 (by simpa [CLIENTS_COUNTER_INIT] using h)
  refine ⟨heq, ?_, ?_, ?_⟩
  · rw [heq]
    exact (List.pairwise_lt_range n).map _ (fun hab => by omega)
  · intro hn
    rw [heq]
    cases n with
    | zero => omega
    | succ m => simp [List.range_succ_eq_map]
  · rw [heq]
    exact (List.nodup_range n).map (fun a b hab => by omega)

/-- Witness for C7: three allocations yield `1000, 1001, 1002`. -/
theorem session_ids_monotone_witness :
    CLIENTS_COUNTER_INIT + 3 ≤ 2 ^ 64
      ∧ (genIds CLIENTS_COUNTER_INIT 3 =
            (List.range 3).map (fun i => 1000 + i)
        ∧ (genIds CLIENTS_COUNTER_INIT 3).Pairwise (· < ·)
        ∧ (0 < 3 → (genIds CLIENTS_COUNTER_INIT 3).head? = some 1000)
        ∧ (genIds CLIENTS_COUNTER_INIT 3).Nodup) :=
  ⟨by norm_num [CLIENTS_COUNTER_INIT],
    session_ids_monotone 3 (by norm_num [CLIENTS_COUNTER_INIT])⟩

/-- C6.  The price update of `update_price_random` refines the spec's
three-case clamp rule exactly: keep `p_old` when the change coin comes up
`false`; otherwise redraw in the Low band when `0.9·p_old < LOW_MIN` and
`1.1·p_old ≤ EXPENSIVE_MAX`, redraw in the Expensive band when
`1.1·p_old > EXPENSIVE_MAX` and `0.9·p_old ≥ LOW_MIN`, and draw from
`[0.9·p_old, 1.1·p_old]` otherwise. -/
theorem update_price_refines_spec (changePrice : Bool) (draw : ℚ × ℚ → ℚ)
    (p : ℚ) :
    updatePriceRandom changePrice draw p = specNewPrice changePrice draw p := by
  cases changePrice with
  | false => simp [updatePriceRandom, specNewPrice]
  | true =>
    have h90 : p * 90 / 100 = 9 / 10 * p := by ring
    have h110 : p * 110 / 100 = 11 / 10 * p := by ring
    simp only [updatePriceRandom, specNewPrice, QUOTE_SETTINGS, h90, h110,
      not_true, if_true, eq_self_iff_true, not_false_iff, if_false]
    by_cases hA : 9 / 10 * p < (1 / 2 : ℚ) <;>
      by_cases hB : 11 / 10 * p > (1500 : ℚ)
    · rw [if_neg (fun h => h.2 hB), if_neg (fun h => h.1 hA),
        if_neg (fun h => absurd h.2 (not_le.mpr hB)),
        if_neg (fun h => absurd h.2 (not_le.mpr hA))]
    · rw [if_pos ⟨hA, hB⟩, if_pos ⟨hA, not_lt.mp hB⟩]
    · rw [if_neg (fun h => hA h.1), if_pos ⟨hA, hB⟩,
        if_neg (fun h => hA h.1), if_pos ⟨hB, not_lt.mp hA⟩]
    · rw [if_neg (fun h => hA h.1), if_neg (fun h => hB h.2),
        if_neg (fun h => hA h.1), if_neg (fun h => hB h.1)]

/-- C5.  Prices stay inside the global band `[LOW_MIN, EXPENSIVE_MAX]`
(`[0.5, 1500]` with the default settings): the initial quote board assigns
every ticker a price inside one of the three tier bands — hence inside the
global band — and every price update (keep, Low redraw, Expensive redraw,
or a `[0.9·p, 1.1·p]` draw) keeps a price that was inside the global band
inside it, for any sampler that stays inside the range it draws from. -/
theorem generated_prices_in_band (draw : ℚ × ℚ → ℚ)
    (hdraw : ∀ t : ℚ × ℚ, t.1 ≤ t.2 → t.1 ≤ draw t ∧ draw t ≤ t.2) :
    (∀ (tickers : List String) (tk : String) (p : ℚ),
        (tk, p) ∈ initQuoteBoard draw tickers →
        ((QUOTE_SETTINGS.expensive.1 ≤ p ∧ p ≤ QUOTE_SETTINGS.expensive.2)
            ∨ (QUOTE_SETTINGS.middle.1 ≤ p ∧ p ≤ QUOTE_SETTINGS.middle.2)
            ∨ (QUOTE_SETTINGS.low.1 ≤ p ∧ p ≤ QUOTE_SETTINGS.low.2))
          ∧ QUOTE_SETTINGS.low.1 ≤ p ∧ p ≤ QUOTE_SETTINGS.expensive.2)
      ∧ (∀ (changePrice : Bool) (p : ℚ),
          QUOTE_SETTINGS.low.1 ≤ p → p ≤ QUOTE_SETTINGS.expensive.2 →
          QUOTE_SETTINGS.low.1 ≤ updatePriceRandom changePrice draw p
            ∧ updatePriceRandom changePrice draw p ≤
              QUOTE_SETTINGS.expensive.2) := by
  have hexp := hdraw QUOTE_SETTINGS.expensive (by norm_num [QUOTE_SETTINGS])
  have hmid := hdraw QUOTE_SETTINGS.middle (by norm_num [QUOTE_SETTINGS])
  have hlow := hdraw QUOTE_SETTINGS.low (by norm_num [QUOTE_SETTINGS])
  simp only [QUOTE_SETTINGS] at hexp hmid hlow ⊢
  constructor
  · intro tickers tk p hmem
    simp only [initQuoteBoard, QUOTE_SETTINGS, List.mem_map] at hmem
    obtain ⟨⟨i, t⟩, _, heq⟩ := hmem
    obtain ⟨rfl, rfl⟩ : t = tk ∧ initPrice draw _ _ i = p :=
      ⟨congrArg Prod.fst heq, congrArg Prod.snd heq⟩
    unfold initPrice
    simp only [QUOTE_SETTINGS]
    split_ifs
    · exact ⟨Or.inl hexp, by constructor <;> linarith [hexp.1, hexp.2]⟩
    · exact ⟨Or.inr (Or.inl hmid), by constructor <;> linarith [hmid.1, hmid.2]⟩
    · exact ⟨Or.inr (Or.inr hlow), by constructor <;> linarith [hlow.1, hlow.2]⟩
  · intro changePrice p hlo hhi
    cases changePrice with
    | false =>
      simp only [updatePriceRandom, Bool.false_eq_true, not_false_iff,
        if_true]
      exact ⟨hlo, hhi⟩
    | true =>
      simp only [updatePriceRandom, QUOTE_SETTINGS, not_true,
        eq_self_iff_true, not_false_iff, if_false]
      by_cases hA : p * 90 / 100 < (1 / 2 : ℚ) <;>
        by_cases hB : p * 110 / 100 > (1500 : ℚ)
      · exact absurd hB (by push_neg; linarith)
      · rw [if_pos ⟨hA, hB⟩]
        exact ⟨hlow.1, by linarith [hlow.2]⟩
      · rw [if_neg (fun h => hA h.1), if_pos ⟨hA, hB⟩]
        exact ⟨by linarith [hexp.1], hexp.2⟩
      · rw [if_neg (fun h => hA h.1), if_neg (fun h => hB h.2)]
        have hmono : p * 90 / 100 ≤ p * 110 / 100 := by linarith
        have hd := hdraw (p * 90 / 100, p * 110 / 100) hmono
        push_neg at hA hB
        exact ⟨by linarith [hd.1], by linarith [hd.2]⟩

/-- Witness for C5: the sampler returning the lower end of each range keeps
every updated price inside the global band. -/
theorem generated_prices_in_band_witness :
    (∀ t : ℚ × ℚ, t.1 ≤ t.2 → t.1 ≤ (fun t : ℚ × ℚ => t.1) t
        ∧ (fun t : ℚ × ℚ => t.1) t ≤ t.2)
      ∧ (QUOTE_SETTINGS.low.1 ≤ updatePriceRandom true (fun t => t.1) 1
        ∧ updatePriceRandom true (fun t => t.1) 1 ≤
          QUOTE_SETTINGS.expensive.2) :=
  ⟨fun _ h => ⟨le_refl _, h⟩,
    (generated_prices_in_band (fun t => t.1) (fun _ h => ⟨le_refl _, h⟩)).2
      true 1 (by norm_num [QUOTE_SETTINGS]) (by norm_num [QUOTE_SETTINGS])⟩

/-- C1 counterexample.  Two subscriptions are registered, both with
`stop = false`, so both are in the dispatcher's active snapshot; the send
to the first hits a disconnected inbox channel, and because
`tickers_sender` `break`s on `Disconnected`, the second — active, with a
channel that would accept the send — receives nothing: the fan-out of this
quote misses an active subscription. -/
theorem dispatch_skips_active_after_disconnected :
    activeSnapshot
        ⟨[(1001, ⟨1001, "127.0.0.1:1", "udp://127.0.0.1:34254/", [],
            false⟩),
          (1002, ⟨1002, "127.0.0.1:2", "udp://127.0.0.1:34255/", [],
            false⟩)]⟩ = [1001, 1002]
      ∧ (fun id => if id = 1001 then SendOutcome.disconnected
          else SendOutcome.ok) 1002 = SendOutcome.ok
      ∧ dispatchQuote
          ⟨[(1001, ⟨1001, "127.0.0.1:1", "udp://127.0.0.1:34254/", [],
              false⟩),
            (1002, ⟨1002, "127.0.0.1:2", "udp://127.0.0.1:34255/", [],
              false⟩)]⟩
          (fun id => if id = 1001 then SendOutcome.disconnected
            else SendOutcome.ok) = [] :=
  ⟨by decide, by decide, by decide⟩

/-- The send loop of `tickers_sender` delivers to the `Ok` sends of the
longest disconnected-free prefix of the snapshot. -/
lemma tickersSender_eq (l : List (ℕ × SendOutcome)) :
    tickersSender l =
      ((l.takeWhile (fun p => p.2 ≠ SendOutcome.disconnected)).filter
        (fun p => p.2 = SendOutcome.ok)).map Prod.fst := by
  induction l with
  | nil => rfl
  | cons hd tl ih =>
    obtain ⟨id, o⟩ := hd
    cases o <;>
      simp [tickersSender, ih, List.takeWhile_cons, List.filter_cons]

/-- C1 amended.  For every quote the dispatcher takes off the bus, the
fan-out walks the `stop = false` snapshot in registry order and delivers to
each subscription whose bounded send succeeds; a per-subscription timeout
skips only that subscription, but the first disconnected inbox aborts the
loop, so the subscriptions after it in the snapshot receive nothing for
that quote. -/
theorem dispatch_fanout_upto_disconnected (m : ClientManager)
    (outcomes : ℕ → SendOutcome) :
    dispatchQuote m outcomes =
      ((((activeSnapshot m).map (fun id => (id, outcomes id))).takeWhile
          (fun p => p.2 ≠ SendOutcome.disconnected)).filter
        (fun p => p.2 = SendOutcome.ok)).map Prod.fst :=
  tickersSender_eq _

/-- C3.  On a subscription filtered to `{AAPL}`, an inbox quote for `MSFT`
makes the transmitter `return` — killing the stream — so a following
`AAPL` quote is never sent; the same `AAPL` quote alone is sent.  This
evaluates the code at the failing input of the `return`-instead-of-drop
defect in `spawn_stream`. -/
theorem filter_mismatch_kills_transmitter :
    transmitterRun ["AAPL"]
        [⟨false, false, some (serdeJsonStockQuote
            ⟨"MSFT", mkRat 201 2, 1000, 1, Transaction.buy⟩)⟩,
          ⟨false, false, some (serdeJsonStockQuote
            ⟨"AAPL", mkRat 201 2, 2000, 2, Transaction.sell⟩)⟩] = []
      ∧ transmitterRun ["AAPL"]
          [⟨false, false, some (serdeJsonStockQuote
              ⟨"AAPL", mkRat 201 2, 2000, 2, Transaction.sell⟩)⟩] =
        [serdeJsonStockQuote
          ⟨"AAPL", mkRat 201 2, 2000, 2, Transaction.sell⟩] :=
  ⟨by decide, by decide⟩

/-- C2 counterexample.  For a concrete quote, the payload `main.rs`'s
generator places on the bus is the pipe-delimited `Display` string, not the
JSON serialization; the transmitter's JSON parse rejects it; and even the
JSON serialization (the `channels.rs` generator) carries
`"transaction":"Buy"`, not the lowercase `"buy"`/`"sell"` of the claim. -/
theorem bus_payload_not_claimed_json :
    busPayloadMain ⟨"AAPL", mkRat 201 2, 1000, 7, Transaction.buy⟩ =
        "AAPL|100.5|1000|7|buy\n"
      ∧ busPayloadMain ⟨"AAPL", mkRat 201 2, 1000, 7, Transaction.buy⟩ ≠
        busPayloadChannels ⟨"AAPL", mkRat 201 2, 1000, 7, Transaction.buy⟩
      ∧ parseStockQuoteJson
          (busPayloadMain ⟨"AAPL", mkRat 201 2, 1000, 7, Transaction.buy⟩) =
        none
      ∧ busPayloadChannels ⟨"AAPL", mkRat 201 2, 1000, 7, Transaction.buy⟩ =
        "\x7b\"ticker\":\"AAPL\",\"price\":100.5,\"volume\":1000,\"timestamp\":7,\"transaction\":\"Buy\"\x7d"
      ∧ Transaction.buy.serdeStr ≠ "buy"
      ∧ Transaction.buy.serdeStr ≠ "sell" :=
  ⟨by decide, by decide, by decide, by decide, by decide, by decide⟩

/-- C2 amended.  The payload the `main.rs` generator places on the bus is
the `Display` string of the quote; for every quote with a well-formed
(non-empty, uppercase) ticker that payload fails the transmitter's JSON
parse, so the transmitter sends no datagram for it; and in the JSON
serialization of the `channels.rs` generator the `transaction` field is the
capitalized `"Sell"` or `"Buy"`. -/
theorem main_bus_payload_is_display_not_json (q : StockQuote)
    (hne : q.ticker.data ≠ []) (hup : ∀ ch ∈ q.ticker.data, ch.isUpper) :
    parseStockQuoteJson (busPayloadMain q) = none
      ∧ (∀ (tickers : List String) (rest : List TransIter),
          transmitterRun tickers
            (⟨false, false, some (busPayloadMain q)⟩ :: rest) = [])
      ∧ (q.transaction.serdeStr = "Sell" ∨ q.transaction.serdeStr = "Buy") := by
  have hparse : parseStockQuoteJson (busPayloadMain q) = none := by
    cases hd : q.ticker.data with
    | nil => exact absurd hd hne
    | cons c cs =>
      have hupc : c.isUpper := hup c (by rw [hd]; exact List.mem_cons_self c cs)
      have hcne : ¬(c = '\x7b') := by
        intro heq
        rw [heq] at hupc
        exact absurd hupc (by decide)
      have hlit : "\x7b\"ticker\":\"".data =
          '\x7b' :: "\"ticker\":\"".data := by decide
      unfold parseStockQuoteJson busPayloadMain quoteDisplayString
      simp only [String.data_append, hd, List.cons_append]
      have hdrop : ∀ L : List Char,
          dropExpected "\x7b\"ticker\":\"".data (c :: L) = none := by
        intro L
        rw [hlit]
        simp [dropExpected, hcne]
      simp [parseStockQuoteJsonList, hdrop]
  refine ⟨hparse, ?_, ?_⟩
  · intro tickers rest
    simp [transmitterRun, hparse]
  · cases hq : q.transaction <;> simp [Transaction.serdeStr]

/-- Witness for C2's amended theorem: the concrete quote
`(AAPL, 100.5, 1000, 7, Buy)`. -/
theorem main_bus_payload_is_display_not_json_witness :
    ((⟨"AAPL", mkRat 201 2, 1000, 7, Transaction.buy⟩ :
          StockQuote).ticker.data ≠ []
        ∧ ∀ ch ∈ (⟨"AAPL", mkRat 201 2, 1000, 7, Transaction.buy⟩ :
            StockQuote).ticker.data, ch.isUpper)
      ∧ (parseStockQuoteJson (busPayloadMain
            ⟨"AAPL", mkRat 201 2, 1000, 7, Transaction.buy⟩) = none
        ∧ (∀ (tickers : List String) (rest : List TransIter),
            transmitterRun tickers
              (⟨false, false, some (busPayloadMain
                ⟨"AAPL", mkRat 201 2, 1000, 7, Transaction.buy⟩)⟩ :: rest) =
              [])
        ∧ ((⟨"AAPL", mkRat 201 2, 1000, 7, Transaction.buy⟩ :
              StockQuote).transaction.serdeStr = "Sell"
            ∨ (⟨"AAPL", mkRat 201 2, 1000, 7, Transaction.buy⟩ :
              StockQuote).transaction.serdeStr = "Buy")) :=
  ⟨⟨by decide, by decide⟩,
    main_bus_payload_is_display_not_json
      ⟨"AAPL", mkRat 201 2, 1000, 7, Transaction.buy⟩ (by decide) (by decide)⟩

/-- Witness for C4: a concrete one-entry registry whose `CANCEL` leaves the
removed subscription flagged, and a concrete trace in which the iteration
after the flag flips produces no datagram. -/
theorem cancel_stops_datagrams_witness :
    (splitWs (strTrim "CANCEL") = "CANCEL" :: ([] : List String)
      ∧ (⟨[(1000, ⟨1000, "127.0.0.1:1", "udp://127.0.0.1:34254/", [],
            false⟩)]⟩ : ClientManager).clients.lookup 1000 =
          some ⟨1000, "127.0.0.1:1", "udp://127.0.0.1:34254/", [], false⟩
      ∧ (handleClientLine ["AAPL"] 1000 "127.0.0.1:1"
          ⟨[(1000, ⟨1000, "127.0.0.1:1", "udp://127.0.0.1:34254/", [],
              false⟩)]⟩ "CANCEL").canceled =
          some ⟨1000, "127.0.0.1:1", "udp://127.0.0.1:34254/", [], true⟩)
      ∧ ((⟨true, false, none⟩ : TransIter).stop = true
        ∧ transmitterRun [] ([] ++ (⟨true, false, none⟩ : TransIter) :: []) =
            transmitterRun [] []) := by
  refine ⟨⟨by decide, by decide, ?_⟩, by decide,
    cancel_stops_datagrams.2 [] [] ⟨true, false, none⟩ [] rfl⟩
  exact cancel_stops_datagrams.1 ["AAPL"] 1000 "127.0.0.1:1"
    ⟨[(1000, ⟨1000, "127.0.0.1:1", "udp://127.0.0.1:34254/", [], false⟩)]⟩
    "CANCEL" [] ⟨1000, "127.0.0.1:1", "udp://127.0.0.1:34254/", [], false⟩
    (by decide) (by decide)

end QuoteServer
